import Mathlib

/-!
Shallow embedding of the dependency-review action's policy-evaluation pipeline
(src/src/main.ts, src/src/check.ts and the unnamed check module). Pure data is
modelled directly; the effectful `run` is modelled as a pure function from its
inputs to the list of reporting-sink calls and failure messages it emits.
-/

namespace DepReview

/-- Severity levels of a vulnerability (see `renderSeverity` in src/src/main.ts and
the data model in the specification). -/
inductive Severity where
  | critical
  | high
  | moderate
  | low
deriving DecidableEq, Repr

/-- Ordinal ranking of severities, low to high: low < moderate < high < critical. -/
def severityRank : Severity → Nat
  | .low => 0
  | .moderate => 1
  | .high => 2
  | .critical => 3

/-- The string value of a severity, as it appears in rendered table cells. -/
def severityString : Severity → String
  | .critical => "critical"
  | .high => "high"
  | .moderate => "moderate"
  | .low => "low"

/-- One vulnerability advisory attached to a dependency change. -/
structure Vulnerability where
  severity : Severity
  advisory_ghsa_id : String
  advisory_summary : String
  advisory_url : String
deriving DecidableEq, Repr

/-- Kind of a dependency change. -/
inductive ChangeType where
  | added
  | removed
deriving DecidableEq, Repr

/-- One dependency difference between two manifest states. `license` and
`source_repository_url` are nullable in the source; `vulnerabilities` is a total,
possibly empty sequence. -/
structure Change where
  change_type : ChangeType
  manifest : String
  name : String
  version : String
  package_url : String
  license : Option String
  source_repository_url : Option String
  vulnerabilities : List Vulnerability
deriving DecidableEq, Repr

/-- Whether vulnerability `v` is at or above the threshold `s`. -/
def qualifies (s : Severity) (v : Vulnerability) : Bool :=
  decide (severityRank s ≤ severityRank v.severity)

/-- Modelled from the spec: the per-Change step of `filterChangesBySeverity`
(imported by src/src/main.ts from `../src/filter`, whose source file is not in the
tree). Spec 4.1: a Change with no vulnerabilities passes through unchanged;
otherwise it is retained only if at least one vulnerability is at or above the
threshold, and the retained Change has its vulnerabilities narrowed to exactly the
qualifying ones. -/
def severityNarrow (s : Severity) (c : Change) : Option Change :=
  if c.vulnerabilities = [] then some c
  else
    let kept := c.vulnerabilities.filter (qualifies s)
    if kept = [] then none else some { c with vulnerabilities := kept }

/-- Modelled from the spec: `filterChangesBySeverity` (src/filter is not in the
tree). Spec 4.1: an undefined threshold returns the input unmodified; otherwise
each Change is narrowed or dropped by `severityNarrow`. -/
def filterChangesBySeverity : Option Severity → List Change → List Change
  | none, changes => changes
  | some s, changes => changes.filterMap (severityNarrow s)

/-- License policy handed to the classifier: `{allow, deny}` built in
src/src/main.ts from `config.allow_licenses` / `config.deny_licenses`. -/
structure LicensePolicy where
  allow : Option (List String)
  deny : Option (List String)
deriving DecidableEq, Repr

/-- Modelled from the spec: the deny/allow decision for a known license string
(src/licenses is not in the tree). Spec 4.3: deny is evaluated first — if the
deny list is non-empty and contains the license, the change is denied; otherwise,
if the allow list is non-empty and does not contain the license, it is denied. -/
def licenseDeniedByPolicy (p : LicensePolicy) (l : String) : Bool :=
  if (p.deny.getD []).contains l then true
  else if !(p.allow.getD []).isEmpty && !((p.allow.getD []).contains l) then true
  else false

/-- Modelled from the spec: whether the classifier places `c` in `denied`.
Only added changes are considered; a change with no license is never denied. -/
def changeLicenseDenied (p : LicensePolicy) (c : Change) : Bool :=
  match c.change_type, c.license with
  | .added, some l => licenseDeniedByPolicy p l
  | _, _ => false

/-- Modelled from the spec: whether the classifier places `c` in `unknown`.
Only added changes with a null/absent license are unknown. -/
def changeLicenseUnknown (c : Change) : Bool :=
  match c.change_type, c.license with
  | .added, none => true
  | _, _ => false

/-- Modelled from the spec: `getDeniedLicenseChanges` (src/licenses is not in the
tree). Spec 4.3: partitions the added changes into a `denied` sequence and an
`unknown` sequence, preserving relative input order. -/
def getDeniedLicenseChanges (changes : List Change) (p : LicensePolicy) :
    List Change × List Change :=
  (changes.filter (changeLicenseDenied p), changes.filter changeLicenseUnknown)

/-- Predicate of the `.filter` applied after the severity filter in
src/src/main.ts `run`: `change_type === 'added' && vulnerabilities !== undefined
&& vulnerabilities.length > 0`. The `!== undefined` conjunct is always true in
the data model, where `vulnerabilities` is a total sequence. -/
def isAddedVulnerable (c : Change) : Bool :=
  match c.change_type with
  | .added => decide (0 < c.vulnerabilities.length)
  | .removed => false

/-- The `addedChanges` list computed in src/src/main.ts `run`: severity-filter the
raw changes, then keep the added changes that still carry vulnerabilities. -/
def addedChanges (minSeverity : Option Severity) (changes : List Change) :
    List Change :=
  (filterChangesBySeverity minSeverity changes).filter isAddedVulnerable

/-- The `renderUrl` helper of src/src/main.ts and src/src/check.ts: link markup
when a URL is present, plain text otherwise. JS truthiness makes both `null` and
the empty string falsy. -/
def renderUrl (url : Option String) (text : String) : String :=
  match url with
  | some u => if u = "" then text else "[" ++ text ++ "](" ++ u ++ ")"
  | none => text

/-- Distinct elements of a list in first-occurrence order, as a JS `Set` built
from a list iterates them. -/
def dedupFirst : List String → List String
  | [] => []
  | m :: rest => m :: dedupFirst (rest.filter (fun x => x != m))
termination_by l => l.length
decreasing_by
  simp only [List.length_cons]
  have := List.length_filter_le (fun x => x != m) rest
  omega

/-- The `getManifests` helper: `new Set(changes.flatMap(c => c.manifest))`, i.e.
the distinct manifest names in first-occurrence order (`flatMap` over a string
value behaves as `map`, since `flat` only flattens arrays). -/
def getManifests (changes : List Change) : List String :=
  dedupFirst (changes.map Change.manifest)

/-- Concatenation of a list of string fragments, as the source's repeated
`body += ...` accumulates them. -/
def joinStrings : List String → String
  | [] => ""
  | s :: rest => s ++ joinStrings rest

/-- One table row of the vulnerabilities report (the inner loop of
`createVulnerabilitiesCheck`): when `sameAsPrevious`, the package and version
cells are compressed to empty (the row starts with `\n|||`). -/
def vulnRow (c : Change) (sameAsPrevious : Bool) (v : Vulnerability) : String :=
  (if !sameAsPrevious then
      "\n| " ++ renderUrl c.source_repository_url c.name ++ " | " ++ c.version ++ "|"
    else "\n|||")
  ++ renderUrl (some v.advisory_url) v.advisory_summary ++ " | "
  ++ severityString v.severity ++ " |"

/-- The vulnerability rows of one Change, threading the loop state
`previous_package` / `previous_version` exactly as the source does. Both are
reset to the empty string at the start of each Change's loop. -/
def changeRowsAux (c : Change) (pp pv : String) : List Vulnerability → String
  | [] => ""
  | v :: vs =>
    vulnRow c (pp == c.name && pv == c.version) v ++ changeRowsAux c c.name c.version vs

/-- All vulnerability rows rendered for one Change. -/
def changeRowsString (c : Change) : String :=
  changeRowsAux c "" "" c.vulnerabilities

/-- The `sameAsPrevious` flags of the rows of `changeRowsAux`, in row order. -/
def changeRowFlagsAux (c : Change) (pp pv : String) : List Vulnerability → List Bool
  | [] => []
  | _ :: vs =>
    (pp == c.name && pv == c.version) :: changeRowFlagsAux c c.name c.version vs

/-- The `sameAsPrevious` flags of the rows rendered for one Change. -/
def changeRowFlags (c : Change) : List Bool :=
  changeRowFlagsAux c "" "" c.vulnerabilities

/-- Per-manifest section of the vulnerabilities check body in src/src/main.ts
(second revision, `createVulnerabilitiesCheck`): section heading, table header,
then the rows of the changes belonging to that manifest. -/
def vulnManifestSectionMain (addedPackages : List Change) (m : String) : String :=
  "\n### Manifes _" ++ m ++ "_\n|Package|Version|Vulnerability|Severity|\n|---|---:|---|---|"
  ++ joinStrings ((addedPackages.filter (fun pkg => pkg.manifest == m)).map changeRowsString)

/-- Body of the vulnerabilities check built by src/src/main.ts (second revision)
`createVulnerabilitiesCheck`: optional severity banner, a heading when any
package is listed, then one section per distinct manifest. -/
def createVulnerabilitiesCheckBodyMain (addedPackages : List Change)
    (severity : Option String) : String :=
  (match severity with
   | some s =>
     if s = "" then ""
     else "> Vulnerabilities where filtered by **" ++ s ++ "** severity.\n"
   | none => "")
  ++ (if addedPackages.length > 0 then "\n## Added known Vulnerabilities" else "")
  ++ joinStrings ((getManifests addedPackages).map (vulnManifestSectionMain addedPackages))

/-- Per-manifest section of the unnamed check module's `createVulnerabilitiesCheck`
(src/unnamed/part_000), identical to the main.ts one except for the heading. -/
def vulnManifestSectionCheck (addedPackages : List Change) (m : String) : String :=
  "\n### _" ++ m ++ "_\n|Package|Version|Vulnerability|Severity|\n|---|---:|---|---|"
  ++ joinStrings ((addedPackages.filter (fun pkg => pkg.manifest == m)).map changeRowsString)

/-- Body of the vulnerabilities check built by src/unnamed/part_000
`createVulnerabilitiesCheck`: opens with a count line `We found N vulnerabilities`
where `N` is the number of Changes passed in, then a heading and severity banner
when any package is listed, then one section per distinct manifest. -/
def createVulnerabilitiesCheckBodyCheck (addedPackages : List Change)
    (severity : Option String) : String :=
  "## Dependency Review\nWe found " ++ toString addedPackages.length ++ " vulnerabilities"
  ++ (if addedPackages.length > 0 then
        "\n## Vulnerabilities"
        ++ (match severity with
            | some s =>
              if s = "" then ""
              else "\n> Vulnerabilities where filtered by **" ++ s ++ "** severity.\n"
            | none => "")
      else "")
  ++ joinStrings ((getManifests addedPackages).map (vulnManifestSectionCheck addedPackages))

/-- Number of table rows the vulnerabilities check body renders: one row per
vulnerability of each Change listed under its manifest's section. -/
def renderedVulnRowCount (addedPackages : List Change) : Nat :=
  ((getManifests addedPackages).map (fun m =>
    ((addedPackages.filter (fun pkg => pkg.manifest == m)).map
      (fun c => c.vulnerabilities.length)).sum)).sum

/-- How a nullable license renders inside a JS template literal: `null` prints as
the string `null`. -/
def showLicense : Option String → String
  | some l => l
  | none => "null"

/-- One table row of the licenses check (`createLicensesCheck`, identical in
src/src/check.ts, src/unnamed/part_000 and src/src/main.ts): package, version and
license cells. The same template is used for both the Incompatible Licenses and
the Unknown Licenses tables. -/
def licenseRow (c : Change) : String :=
  "\n|" ++ renderUrl c.source_repository_url c.name ++ "|" ++ c.version ++ "|"
  ++ showLicense c.license ++ "|"

/-- Column-declaration line of the Unknown Licenses table header: two columns. -/
def unknownColumnsHeader : String := "|Package|Version|"

/-- Per-manifest section of the Unknown Licenses table (identical in
src/src/check.ts lines 73-86, src/unnamed/part_000 and src/src/main.ts). -/
def unknownManifestSection (unknownLicensesErrors : List Change) (m : String) : String :=
  "\n ### Manifest _" ++ m ++ "_:\n" ++ unknownColumnsHeader ++ "\n|---|---:|"
  ++ joinStrings
      ((unknownLicensesErrors.filter (fun pkg => pkg.manifest == m)).map licenseRow)

/-- Configuration supplied by the config collaborator (already validated). -/
structure ConfigurationOptions where
  fail_on_severity : Option Severity
  allow_licenses : Option (List String)
  deny_licenses : Option (List String)
  check_name_vulnerability : Option String
  check_name_license : Option String
deriving DecidableEq, Repr

/-- JS `a || b` on a nullable string: null/undefined and the empty string are
falsy, so they yield the default. -/
def orDefault (o : Option String) (d : String) : String :=
  match o with
  | some s => if s = "" then d else s
  | none => d

/-- The `licenses` policy object built in src/src/main.ts `run` from the config. -/
def configLicenses (config : ConfigurationOptions) : LicensePolicy :=
  { allow := config.allow_licenses, deny := config.deny_licenses }

/-- The allow/deny banner lines of the licenses check body: each is emitted only
when the corresponding configured list is non-empty. -/
def allowDenyBanner (config : ConfigurationOptions) : String :=
  (match config.allow_licenses with
   | some al =>
     if al.length > 0 then
       "\n> **Allowed Licenses**: " ++ String.intercalate ", " al ++ "\n"
     else ""
   | none => "")
  ++ (match config.deny_licenses with
      | some dl =>
        if dl.length > 0 then
          "\n> **Denied Licenses**: " ++ String.intercalate ", " dl ++ "\n"
        else ""
      | none => "")

/-- Per-manifest section of the Incompatible Licenses table in src/src/main.ts
(second revision, `createLicensesCheck`). -/
def incompatibleManifestSectionMain (licenseErrors : List Change) (m : String) : String :=
  "\n ### Manifest _" ++ m ++ "_:\n|Package|Version|License|\n|---|---:|---|"
  ++ joinStrings ((licenseErrors.filter (fun pkg => pkg.manifest == m)).map licenseRow)

/-- Body of the licenses check built by src/src/main.ts (second revision)
`createLicensesCheck`: banner plus Incompatible Licenses tables when any license
error exists, then Unknown Licenses tables when any unknown license exists. -/
def createLicensesCheckBodyMain (licenseErrors unknownLicensesErrors : List Change)
    (config : ConfigurationOptions) : String :=
  (if licenseErrors.length > 0 then
     allowDenyBanner config ++ "\n## Incompatible Licenses"
     ++ joinStrings
         ((getManifests licenseErrors).map (incompatibleManifestSectionMain licenseErrors))
   else "")
  ++ (if unknownLicensesErrors.length > 0 then
       "\n## Unknown Licenses\n"
       ++ joinStrings
           ((getManifests unknownLicensesErrors).map
             (unknownManifestSection unknownLicensesErrors))
     else "")

/-- One call to the reporting sink (`checks.addCheck`): rendered body, check
name, commit sha and the failed flag. -/
structure CheckCall where
  body : String
  checkName : String
  sha : String
  failed : Bool
deriving DecidableEq, Repr

/-- Observable outcome of one run: the reporting-sink calls in order, and the
`core.setFailed` messages in order. Plain `core.info` logging is presentational
and not modelled. -/
structure RunOutcome where
  checks : List CheckCall
  failedMessages : List String
deriving DecidableEq, Repr

/-- The happy path of src/src/main.ts (second revision) `run`, after the event
check, pull-request parse and `dependencyGraph.compare` have succeeded: severity
filter, added-with-vulnerabilities selection, vulnerabilities check, license
classification, licenses check, and failure signalling. -/
def runCore (changes : List Change) (config : ConfigurationOptions) (sha : String) :
    RunOutcome :=
  let minSeverity := config.fail_on_severity
  let added := addedChanges minSeverity changes
  let failed := decide (0 < added.length)
  let vulnCheck : CheckCall :=
    { body := createVulnerabilitiesCheckBodyMain added (minSeverity.map severityString),
      checkName := orDefault config.check_name_vulnerability "Dependency Review Vulnerabilities",
      sha := sha,
      failed := failed }
  let deniedUnknown := getDeniedLicenseChanges changes (configLicenses config)
  let licenseErrors := deniedUnknown.1
  let unknownLicenses := deniedUnknown.2
  let licenseMsgs :=
    if 0 < licenseErrors.length then
      ["Dependency review detected incompatible licenses."]
    else []
  let licCheck : CheckCall :=
    { body := createLicensesCheckBodyMain licenseErrors unknownLicenses config,
      checkName := orDefault config.check_name_license "Dependency Review Licenses",
      sha := sha,
      failed := decide (0 < licenseErrors.length) }
  let vulnMsgs :=
    if failed then ["Dependency review detected vulnerable packages."] else []
  { checks := [vulnCheck, licCheck], failedMessages := licenseMsgs ++ vulnMsgs }

/-- The values a `catch` clause of the run can receive: an octokit
`RequestError` (an `Error` carrying an HTTP status), any other `Error`, or a
thrown non-Error value. -/
inductive RunError where
  | requestError (status : Nat) (message : String)
  | otherError (message : String)
  | nonErrorThrow
deriving DecidableEq, Repr

/-- The 404 message of the catch block in src/src/main.ts `run`. -/
def notFoundMessage : String :=
  "Dependency review could not obtain dependency data for the specified owner, repository, or revision range."

/-- The 403 message of the catch block, which includes a remediation pointer to
the repository's security-analysis settings. -/
def forbiddenMessage (owner repo : String) : String :=
  "Dependency review is not supported on this repository. Please ensure that Dependency graph is enabled, see https://github.com/"
  ++ owner ++ "/" ++ repo ++ "/settings/security_analysis"

/-- The catch block of src/src/main.ts `run`: 404 and 403 request errors get
specific messages, any other `Error` (including request errors with other
statuses) reports its own message, and a thrown non-Error value gets the generic
fallback. The handler is total: the run never rethrows. -/
def handleRunError (owner repo : String) : RunError → String
  | .requestError status m =>
    if status = 404 then notFoundMessage
    else if status = 403 then forbiddenMessage owner repo
    else m
  | .otherError m => m
  | .nonErrorThrow => "Unexpected fatal error"

/-- Top-level `run` of src/src/main.ts (second revision): if the input stage
(event check, pull-request parse, `dependencyGraph.compare`) failed, the catch
block converts the error into exactly one failure message and no sink call;
otherwise the core pipeline runs. -/
def run (compareOutcome : Except RunError (List Change))
    (config : ConfigurationOptions) (owner repo sha : String) : RunOutcome :=
  match compareOutcome with
  | .ok changes => runCore changes config sha
  | .error e => { checks := [], failedMessages := [handleRunError owner repo e] }

/-- Count of pipe characters of a string; a Markdown table line with `n + 1`
pipes has `n` cells. -/
def countPipes (s : String) : Nat := s.data.count '|'

/-! Concrete sample data used by witness and counterexample theorems. -/

/-- Sample low-severity vulnerability. -/
def exVulnLow : Vulnerability :=
  { severity := .low, advisory_ghsa_id := "GHSA-1", advisory_summary := "L1",
    advisory_url := "" }

/-- Sample critical-severity vulnerability. -/
def exVulnCritical : Vulnerability :=
  { severity := .critical, advisory_ghsa_id := "GHSA-2", advisory_summary := "C1",
    advisory_url := "" }

/-- Sample added change with no vulnerabilities. -/
def exChangeNoVuln : Change :=
  { change_type := .added, manifest := "package.json", name := "alpha",
    version := "1.0.0", package_url := "", license := some "MIT",
    source_repository_url := none, vulnerabilities := [] }

/-- Sample added change with one low and one critical vulnerability. -/
def exChangeMixed : Change :=
  { change_type := .added, manifest := "package.json", name := "beta",
    version := "2.0.0", package_url := "", license := some "MIT",
    source_repository_url := none, vulnerabilities := [exVulnLow, exVulnCritical] }

/-- Sample added change with an Apache-2.0 license. -/
def exChangeApache : Change :=
  { change_type := .added, manifest := "package.json", name := "gamma",
    version := "3.0.0", package_url := "", license := some "Apache-2.0",
    source_repository_url := none, vulnerabilities := [] }

/-- Sample added change with a null license. -/
def exChangeNullLicense : Change :=
  { change_type := .added, manifest := "package.json", name := "delta",
    version := "4.0.0", package_url := "", license := none,
    source_repository_url := none, vulnerabilities := [] }

/-- Sample configuration with an allow-list of MIT only and no severity filter. -/
def exConfigAllowMIT : ConfigurationOptions :=
  { fail_on_severity := none, allow_licenses := some ["MIT"], deny_licenses := none,
    check_name_vulnerability := none, check_name_license := none }

/-- First change of the repeated-package scenario: `pkg@1.0.0` with two
vulnerabilities. -/
def exC7Change1 : Change :=
  { change_type := .added, manifest := "package.json", name := "pkg",
    version := "1.0.0", package_url := "", license := some "MIT",
    source_repository_url := none,
    vulnerabilities :=
      [{ severity := .high, advisory_ghsa_id := "GHSA-3", advisory_summary := "S1",
         advisory_url := "" },
       { severity := .high, advisory_ghsa_id := "GHSA-4", advisory_summary := "S2",
         advisory_url := "" }] }

/-- Second change of the repeated-package scenario: the same `pkg@1.0.0` with two
further vulnerabilities. -/
def exC7Change2 : Change :=
  { change_type := .added, manifest := "package.json", name := "pkg",
    version := "1.0.0", package_url := "", license := some "MIT",
    source_repository_url := none,
    vulnerabilities :=
      [{ severity := .high, advisory_ghsa_id := "GHSA-5", advisory_summary := "S3",
         advisory_url := "" },
       { severity := .high, advisory_ghsa_id := "GHSA-6", advisory_summary := "S4",
         advisory_url := "" }] }

end DepReview

namespace DepReview

/-! Helper lemmas. -/

/-- Soundness of the per-Change severity step: an output change either is an
unmodified input with no vulnerabilities, or is the input narrowed to its
qualifying vulnerabilities, which are non-empty. -/
theorem severityNarrow_sound {s : Severity} {a r : Change}
    (h : severityNarrow s a = some r) :
    (r = a ∧ a.vulnerabilities = []) ∨
      (r = { a with vulnerabilities := a.vulnerabilities.filter (qualifies s) } ∧
        a.vulnerabilities.filter (qualifies s) ≠ []) := by
  unfold severityNarrow at h
  by_cases hv : a.vulnerabilities = []
  · rw [if_pos hv] at h
    exact Or.inl ⟨(Option.some.injEq _ _ ▸ h).symm, hv⟩
  · rw [if_neg hv] at h
    by_cases hk : a.vulnerabilities.filter (qualifies s) = []
    · simp only [hk, if_pos] at h
      cases h
    · simp only [hk, if_neg, reduceIte] at h
      exact Or.inr ⟨(Option.some.injEq _ _ ▸ h : _ = r).symm, hk⟩

/-- The added-with-vulnerabilities predicate holds exactly on added changes with
a non-empty vulnerability list. -/
theorem isAddedVulnerable_iff (c : Change) :
    isAddedVulnerable c = true ↔
      c.change_type = ChangeType.added ∧ c.vulnerabilities ≠ [] := by
  unfold isAddedVulnerable
  cases h : c.change_type <;>
    simp [h, List.length_pos]

/-- C2: `filterBySeverity` with an undefined threshold returns the input list
unmodified; with a defined threshold it never drops a Change with zero
vulnerabilities, it retains a vulnerable Change (narrowed to exactly the
vulnerabilities at or above the threshold) whenever some vulnerability
qualifies, and every retained change carries only qualifying vulnerabilities —
in particular a retained vulnerable change has at least one vulnerability at or
above the threshold. -/
theorem claim_C2_filterBySeverity (s : Severity) (changes : List Change) :
    filterChangesBySeverity none changes = changes
    ∧ (∀ c ∈ changes, c.vulnerabilities = [] →
        c ∈ filterChangesBySeverity (some s) changes)
    ∧ (∀ c ∈ changes, ∀ v ∈ c.vulnerabilities, qualifies s v = true →
        { c with vulnerabilities := c.vulnerabilities.filter (qualifies s) } ∈
          filterChangesBySeverity (some s) changes)
    ∧ (∀ r ∈ filterChangesBySeverity (some s) changes, r.vulnerabilities ≠ [] →
        ∃ v ∈ r.vulnerabilities, qualifies s v = true)
    ∧ (∀ r ∈ filterChangesBySeverity (some s) changes, ∀ v ∈ r.vulnerabilities,
        qualifies s v = true) := by
  refine ⟨rfl, ?_, ?_, ?_, ?_⟩
  · intro c hc hv
    refine List.mem_filterMap.mpr ⟨c, hc, ?_⟩
    simp [severityNarrow, hv]
  · intro c hc v hv hq
    refine List.mem_filterMap.mpr ⟨c, hc, ?_⟩
    have hne : c.vulnerabilities ≠ [] := by
      intro h
      rw [h] at hv
      exact absurd hv (List.not_mem_nil v)
    have hkept : v ∈ c.vulnerabilities.filter (qualifies s) :=
      List.mem_filter.mpr ⟨hv, hq⟩
    have hkne : c.vulnerabilities.filter (qualifies s) ≠ [] := by
      intro h
      rw [h] at hkept
      exact absurd hkept (List.not_mem_nil v)
    simp [severityNarrow, hne, hkne]
  · intro r hr hrv
    obtain ⟨a, ha, hna⟩ := List.mem_filterMap.mp hr
    rcases severityNarrow_sound hna with ⟨he, hv⟩ | ⟨he, hk⟩
    · exact absurd (he ▸ hv) hrv
    · obtain ⟨v, hvmem⟩ := List.exists_mem_of_ne_nil _ hk
      have := List.mem_filter.mp hvmem
      exact ⟨v, by rw [he]; exact hvmem, this.2⟩
  · intro r hr v hv
    obtain ⟨a, ha, hna⟩ := List.mem_filterMap.mp hr
    rcases severityNarrow_sound hna with ⟨he, hve⟩ | ⟨he, hk⟩
    · rw [he, hve] at hv
      exact absurd hv (List.not_mem_nil v)
    · rw [he] at hv
      exact (List.mem_filter.mp hv).2

/-- Witness for C2 at a concrete input: the change with no vulnerabilities is
kept, and the mixed change is kept narrowed to its critical vulnerability. -/
theorem claim_C2_witness :
    exChangeNoVuln ∈
      filterChangesBySeverity (some .high) [exChangeNoVuln, exChangeMixed]
    ∧ { exChangeMixed with
          vulnerabilities := exChangeMixed.vulnerabilities.filter (qualifies .high) } ∈
        filterChangesBySeverity (some .high) [exChangeNoVuln, exChangeMixed] :=
  ⟨(claim_C2_filterBySeverity .high [exChangeNoVuln, exChangeMixed]).2.1
      exChangeNoVuln (by decide) (by decide),
   (claim_C2_filterBySeverity .high [exChangeNoVuln, exChangeMixed]).2.2.1
      exChangeMixed (by decide) exVulnCritical (by decide) (by decide)⟩

/-- C3: the license classifier considers only added changes; an added change
whose license is in the deny list is denied regardless of the allow list (deny
is evaluated first), and an added change whose license is absent from a
non-empty allow list is denied. -/
theorem claim_C3_licenseClassifier (changes : List Change) (p : LicensePolicy) :
    (∀ c ∈ (getDeniedLicenseChanges changes p).1, c.change_type = ChangeType.added)
    ∧ (∀ c ∈ (getDeniedLicenseChanges changes p).2, c.change_type = ChangeType.added)
    ∧ (∀ c ∈ changes, ∀ l, c.change_type = ChangeType.added → c.license = some l →
        (p.deny.getD []).contains l = true →
        c ∈ (getDeniedLicenseChanges changes p).1)
    ∧ (∀ c ∈ changes, ∀ l al, c.change_type = ChangeType.added → c.license = some l →
        p.allow = some al → al ≠ [] → al.contains l = false →
        c ∈ (getDeniedLicenseChanges changes p).1) := by
  refine ⟨?_, ?_, ?_, ?_⟩
  · intro c hc
    have h := (List.mem_filter.mp hc).2
    unfold changeLicenseDenied at h
    cases ht : c.change_type <;> cases hl : c.license <;> simp [ht, hl] at h ⊢
  · intro c hc
    have h := (List.mem_filter.mp hc).2
    unfold changeLicenseUnknown at h
    cases ht : c.change_type <;> cases hl : c.license <;> simp [ht, hl] at h ⊢
  · intro c hc l ht hl hd
    refine List.mem_filter.mpr ⟨hc, ?_⟩
    simp [changeLicenseDenied, ht, hl, licenseDeniedByPolicy]
    exact Or.inl (by simpa using hd)
  · intro c hc l al ht hl hal hne hnc
    refine List.mem_filter.mpr ⟨hc, ?_⟩
    simp [changeLicenseDenied, ht, hl, licenseDeniedByPolicy, hal]
    exact Or.inr ⟨hne, by simpa using hnc⟩

/-- Witness for C3 at the spec's Scenario 2: with allow-list `["MIT"]`, an added
Apache-2.0 change is denied. -/
theorem claim_C3_witness :
    exChangeApache ∈
      (getDeniedLicenseChanges [exChangeApache]
        { allow := some ["MIT"], deny := none }).1 :=
  (claim_C3_licenseClassifier [exChangeApache]
      { allow := some ["MIT"], deny := none }).2.2.2
    exChangeApache (by decide) "Apache-2.0" ["MIT"] (by decide) (by decide)
    rfl (by decide) (by decide)

/-- C4: the set reported as new vulnerable dependencies is a sublist (subset in
input order) of the severity-filtered list, and its members are exactly the
filtered changes that are added and carry a non-empty vulnerabilities
sequence. -/
theorem claim_C4_addedSelection (minSeverity : Option Severity) (changes : List Change) :
    (addedChanges minSeverity changes).Sublist
        (filterChangesBySeverity minSeverity changes)
    ∧ ∀ c : Change,
        c ∈ addedChanges minSeverity changes ↔
          c ∈ filterChangesBySeverity minSeverity changes ∧
            c.change_type = ChangeType.added ∧ c.vulnerabilities ≠ [] := by
  constructor
  · exact List.filter_sublist _
  · intro c
    unfold addedChanges
    rw [List.mem_filter, isAddedVulnerable_iff]

/-- Witness for C4 at a concrete input: the narrowed mixed change is selected
from the severity-filtered list. -/
theorem claim_C4_witness :
    { exChangeMixed with
        vulnerabilities := exChangeMixed.vulnerabilities.filter (qualifies .high) } ∈
      addedChanges (some .high) [exChangeNoVuln, exChangeMixed] :=
  ((claim_C4_addedSelection (some .high) [exChangeNoVuln, exChangeMixed]).2 _).mpr
    ⟨by decide, by decide, by decide⟩

/-- C5: the classifier's denied and unknown sequences are disjoint; a change
with a null license is never denied, regardless of the policy, and an added
change with a null license is always placed in unknown. -/
theorem claim_C5_deniedUnknownDisjoint (changes : List Change) (p : LicensePolicy) :
    (∀ c ∈ (getDeniedLicenseChanges changes p).1,
        c ∉ (getDeniedLicenseChanges changes p).2)
    ∧ (∀ c : Change, c.license = none → c ∉ (getDeniedLicenseChanges changes p).1)
    ∧ (∀ c ∈ changes, c.change_type = ChangeType.added → c.license = none →
        c ∈ (getDeniedLicenseChanges changes p).2) := by
  refine ⟨?_, ?_, ?_⟩
  · intro c hc hu
    have hd := (List.mem_filter.mp hc).2
    have hk := (List.mem_filter.mp hu).2
    unfold changeLicenseDenied at hd
    unfold changeLicenseUnknown at hk
    cases ht : c.change_type <;> cases hl : c.license <;>
      simp [ht, hl] at hd hk
  · intro c hl hc
    have hd := (List.mem_filter.mp hc).2
    unfold changeLicenseDenied at hd
    cases ht : c.change_type <;> simp [ht, hl] at hd
  · intro c hc ht hl
    refine List.mem_filter.mpr ⟨hc, ?_⟩
    simp [changeLicenseUnknown, ht, hl]

/-- C1: the run is marked failed (at least one `core.setFailed` call) iff some
vulnerable added dependency survived the severity filter or some denied license
was found; in particular a run with only unknown licenses is not marked
failed. -/
theorem claim_C1_failureSignal (changes : List Change) (config : ConfigurationOptions)
    (sha : String) :
    (runCore changes config sha).failedMessages ≠ [] ↔
      (addedChanges config.fail_on_severity changes ≠ [] ∨
        (getDeniedLicenseChanges changes (configLicenses config)).1 ≠ []) := by
  by_cases ha : addedChanges config.fail_on_severity changes = [] <;>
  by_cases hd : (getDeniedLicenseChanges changes (configLicenses config)).1 = [] <;>
    simp [runCore, List.length_pos, ha, hd]

/-- Witness for C1 at a concrete input: a denied license alone marks the run
failed. -/
theorem claim_C1_witness :
    (runCore [exChangeApache] exConfigAllowMIT "sha").failedMessages ≠ [] :=
  (claim_C1_failureSignal [exChangeApache] exConfigAllowMIT "sha").mpr
    (Or.inr (by decide))

/-- C6: every run that reaches the reporting stage calls the reporting sink
exactly twice — once with the vulnerabilities check and once with the licenses
check — regardless of whether policy violations were found. -/
theorem claim_C6_twoSinkCalls (changes : List Change) (config : ConfigurationOptions)
    (sha : String) :
    (runCore changes config sha).checks.length = 2
    ∧ (runCore changes config sha).checks.map CheckCall.checkName =
        [orDefault config.check_name_vulnerability "Dependency Review Vulnerabilities",
         orDefault config.check_name_license "Dependency Review Licenses"] :=
  ⟨rfl, rfl⟩

/-- C8: every error is converted to exactly one failure message and the run
never rethrows: a 404 request error yields the data-unavailable message, a 403
request error yields the remediation message, any other `Error` (including a
request error with another status) yields its own message, and a thrown
non-Error value yields the generic fallback. -/
theorem claim_C8_errorHandling (owner repo : String) (config : ConfigurationOptions)
    (sha : String) (e : RunError) :
    (run (.error e) config owner repo sha).failedMessages.length = 1
    ∧ (∀ m, e = .requestError 404 m →
        (run (.error e) config owner repo sha).failedMessages = [notFoundMessage])
    ∧ (∀ m, e = .requestError 403 m →
        (run (.error e) config owner repo sha).failedMessages =
          [forbiddenMessage owner repo])
    ∧ (∀ st m, e = .requestError st m → st ≠ 404 → st ≠ 403 →
        (run (.error e) config owner repo sha).failedMessages = [m])
    ∧ (∀ m, e = .otherError m →
        (run (.error e) config owner repo sha).failedMessages = [m])
    ∧ (e = .nonErrorThrow →
        (run (.error e) config owner repo sha).failedMessages =
          ["Unexpected fatal error"]) := by
  refine ⟨rfl, ?_, ?_, ?_, ?_, ?_⟩
  · intro m h
    subst h
    simp [run, handleRunError]
  · intro m h
    subst h
    simp [run, handleRunError]
  · intro st m h h404 h403
    subst h
    simp [run, handleRunError, h404, h403]
  · intro m h
    subst h
    rfl
  · intro h
    subst h
    rfl

/-- Witness for C8 at a concrete input: a request error with status 500 reports
its own message. -/
theorem claim_C8_witness :
    (run (.error (.requestError 500 "boom")) exConfigAllowMIT "o" "r" "sha").failedMessages
      = ["boom"] :=
  (claim_C8_errorHandling "o" "r" exConfigAllowMIT "sha" (.requestError 500 "boom")).2.2.2.1
    500 "boom" rfl (by decide) (by decide)

/-- Witness for C5 at a concrete input: an added change with a null license is
placed in unknown even under a deny-list policy. -/
theorem claim_C5_witness :
    exChangeNullLicense ∈
      (getDeniedLicenseChanges [exChangeNullLicense]
        { allow := none, deny := some ["MIT"] }).2 :=
  (claim_C5_deniedUnknownDisjoint [exChangeNullLicense]
      { allow := none, deny := some ["MIT"] }).2.2
    exChangeNullLicense (by decide) (by decide) (by decide)

/-- Membership in `dedupFirst` is membership in the original list (fuelled
induction on the list length). -/
theorem mem_dedupFirst_of_le (x : String) :
    ∀ (n : Nat) (l : List String), l.length ≤ n → (x ∈ dedupFirst l ↔ x ∈ l) := by
  intro n
  induction n with
  | zero =>
    intro l hl
    have h0 : l = [] := List.eq_nil_of_length_eq_zero (Nat.le_zero.mp hl)
    subst h0
    simp [dedupFirst]
  | succ n ih =>
    intro l hl
    cases l with
    | nil => simp [dedupFirst]
    | cons m rest =>
      rw [dedupFirst]
      have hlen : (rest.filter (fun x => x != m)).length ≤ n := by
        have h1 := List.length_filter_le (fun x => x != m) rest
        simp only [List.length_cons] at hl
        omega
      rw [List.mem_cons, List.mem_cons, ih _ hlen, List.mem_filter]
      by_cases hx : x = m <;> simp [hx]

/-- Membership in `dedupFirst` is membership in the original list. -/
theorem mem_dedupFirst (x : String) (l : List String) :
    x ∈ dedupFirst l ↔ x ∈ l :=
  mem_dedupFirst_of_le x l.length l le_rfl

/-- Summing `f` over the elements satisfying `p` and over those failing it gives
the sum over the whole list. -/
theorem sum_map_filter_partition {α : Type} (f : α → Nat) (p : α → Bool)
    (l : List α) :
    ((l.filter p).map f).sum + ((l.filter (fun a => !(p a))).map f).sum
      = (l.map f).sum := by
  induction l with
  | nil => rfl
  | cons a t ih =>
    by_cases hp : p a = true <;>
      simp [List.filter_cons, hp] <;> omega

/-- Grouping a change list by its distinct manifests partitions it: the grouped
sums of `f` add up to the plain sum of `f` (fuelled induction mirroring
`dedupFirst`). -/
theorem groupedSum_of_le (f : Change → Nat) :
    ∀ (n : Nat) (ms : List String), ms.length ≤ n → ∀ (l : List Change),
      (∀ c ∈ l, c.manifest ∈ ms) →
      ((dedupFirst ms).map (fun m =>
        ((l.filter (fun c => c.manifest == m)).map f).sum)).sum = (l.map f).sum := by
  intro n
  induction n with
  | zero =>
    intro ms hms l hl
    have h0 : ms = [] := List.eq_nil_of_length_eq_zero (Nat.le_zero.mp hms)
    subst h0
    have h1 : l = [] := by
      cases l with
      | nil => rfl
      | cons c t => exact absurd (hl c (List.mem_cons_self c t)) (List.not_mem_nil _)
    subst h1
    simp [dedupFirst]
  | succ n ih =>
    intro ms hms l hl
    cases ms with
    | nil =>
      have h1 : l = [] := by
        cases l with
        | nil => rfl
        | cons c t => exact absurd (hl c (List.mem_cons_self c t)) (List.not_mem_nil _)
      subst h1
      simp [dedupFirst]
    | cons m rest =>
      rw [dedupFirst]
      simp only [List.map_cons, List.sum_cons]
      have hcongr :
          (dedupFirst (rest.filter (fun x => x != m))).map (fun m' =>
            ((l.filter (fun c => c.manifest == m')).map f).sum)
          = (dedupFirst (rest.filter (fun x => x != m))).map (fun m' =>
            (((l.filter (fun c => !(c.manifest == m))).filter
                (fun c => c.manifest == m')).map f).sum) := by
        apply List.map_congr_left
        intro m' hm'
        have hmem : m' ∈ rest.filter (fun x => x != m) :=
          (mem_dedupFirst m' _).mp hm'
        have hne : m' ≠ m := by
          have h2 := (List.mem_filter.mp hmem).2
          simpa using h2
        have hfeq : l.filter (fun c => c.manifest == m')
            = (l.filter (fun c => !(c.manifest == m))).filter
                (fun c => c.manifest == m') := by
          rw [List.filter_filter]
          apply List.filter_congr
          intro c _
          by_cases hc : c.manifest = m'
          · simp only [hc, beq_self_eq_true, Bool.true_and, Bool.and_true, eq_comm]
            simp [hne]
          · simp [hc]
        rw [hfeq]
      rw [hcongr]
      have hlen : (rest.filter (fun x => x != m)).length ≤ n := by
        have h1 := List.length_filter_le (fun x => x != m) rest
        simp only [List.length_cons] at hms
        omega
      have hmem2 : ∀ c ∈ l.filter (fun c => !(c.manifest == m)),
          c.manifest ∈ rest.filter (fun x => x != m) := by
        intro c hc
        obtain ⟨hcl, hcb⟩ := List.mem_filter.mp hc
        have hneq : c.manifest ≠ m := by simpa using hcb
        have h3 := hl c hcl
        rw [List.mem_cons] at h3
        rcases h3 with h3 | h3
        · exact absurd h3 hneq
        · exact List.mem_filter.mpr ⟨h3, by simpa using hneq⟩
      rw [ih _ hlen _ hmem2]
      exact sum_map_filter_partition f (fun c => c.manifest == m) l

/-- The number of rows the vulnerabilities check body renders equals the total
number of vulnerabilities across all changes. -/
theorem renderedVulnRowCount_eq (l : List Change) :
    renderedVulnRowCount l = (l.map (fun c => c.vulnerabilities.length)).sum := by
  unfold renderedVulnRowCount getManifests
  exact groupedSum_of_le _ (l.map Change.manifest).length _ le_rfl l
    (fun c hc => List.mem_map_of_mem Change.manifest hc)

/-- A list of positive naturals has length at most its sum. -/
theorem length_le_sum_of_one_le :
    ∀ ns : List Nat, (∀ x ∈ ns, 1 ≤ x) → ns.length ≤ ns.sum := by
  intro ns
  induction ns with
  | nil => intro _; simp
  | cons a t ih =>
    intro h
    have ha := h a (List.mem_cons_self a t)
    have ht := ih (fun x hx => h x (List.mem_cons_of_mem a hx))
    simp only [List.length_cons, List.sum_cons]
    omega

/-- A list of positive naturals with some element at least two has length
strictly below its sum. -/
theorem length_lt_sum_of_two_le (ns : List Nat) (h1 : ∀ x ∈ ns, 1 ≤ x)
    (h2 : ∃ x ∈ ns, 2 ≤ x) : ns.length < ns.sum := by
  induction ns with
  | nil =>
    obtain ⟨x, hx, _⟩ := h2
    exact absurd hx (List.not_mem_nil x)
  | cons a t ih =>
    simp only [List.length_cons, List.sum_cons]
    obtain ⟨x, hx, hx2⟩ := h2
    rw [List.mem_cons] at hx
    have ht1 : ∀ x ∈ t, 1 ≤ x := fun x hx => h1 x (List.mem_cons_of_mem a hx)
    rcases hx with hx | hx
    · have := length_le_sum_of_one_le t ht1
      omega
    · have := ih ht1 ⟨x, hx, hx2⟩
      have ha := h1 a (List.mem_cons_self a t)
      omega

/-- The compression flags with the previous-package state already equal to the
change's own name and version are all true. -/
theorem changeRowFlagsAux_all_true (c : Change) (vs : List Vulnerability) :
    changeRowFlagsAux c c.name c.version vs = vs.map (fun _ => true) := by
  induction vs with
  | nil => rfl
  | cons v t ih => simp [changeRowFlagsAux, ih]

/-- The compression flags of a single Change whose name and version are not both
empty: the first row is uncompressed, every later row is compressed. -/
theorem changeRowFlags_spec (c : Change) (h : ¬(c.name = "" ∧ c.version = "")) :
    changeRowFlags c =
      (match c.vulnerabilities with
       | [] => ([] : List Bool)
       | _ :: vs => false :: vs.map (fun _ => true)) := by
  unfold changeRowFlags
  cases hv : c.vulnerabilities with
  | nil => rfl
  | cons v vs =>
    have hfalse : ((("" : String) == c.name) && (("" : String) == c.version)) = false := by
      by_cases h1 : c.name = ""
      · have h2 : c.version ≠ "" := fun h2 => h ⟨h1, h2⟩
        have h3 : (("" : String) == c.version) = false :=
          beq_eq_false_iff_ne.mpr (fun he => h2 he.symm)
        simp [h3]
      · have h3 : (("" : String) == c.name) = false :=
          beq_eq_false_iff_ne.mpr (fun he => h1 he.symm)
        simp [h3]
    simp [changeRowFlagsAux, hfalse, changeRowFlagsAux_all_true]

/-- The rendered rows of one Change are the flagged rows in order: the string
accumulated by the source loop equals the join of `vulnRow` over the flags
paired with the vulnerabilities. -/
theorem changeRowsAux_eq_join (c : Change) :
    ∀ (vs : List Vulnerability) (pp pv : String),
      changeRowsAux c pp pv vs =
        joinStrings (((changeRowFlagsAux c pp pv vs).zip vs).map
          (fun bv => vulnRow c bv.1 bv.2)) := by
  intro vs
  induction vs with
  | nil => intro pp pv; rfl
  | cons v t ih =>
    intro pp pv
    simp [changeRowsAux, changeRowFlagsAux, joinStrings, ih, List.zip]

/-- Pipe counts add over string concatenation. -/
theorem countPipes_append (a b : String) :
    countPipes (a ++ b) = countPipes a + countPipes b := by
  unfold countPipes
  have hdata : (a ++ b).data = a.data ++ b.data := rfl
  rw [hdata, List.count_append]

/-- String concatenation is associative. -/
theorem stringAppend_assoc (a b c : String) : a ++ b ++ c = a ++ (b ++ c) := by
  apply String.ext
  show (a.data ++ b.data) ++ c.data = a.data ++ (b.data ++ c.data)
  exact List.append_assoc _ _ _

/-- C9: the vulnerabilities check body of the unnamed check module always opens
with `We found N vulnerabilities` where `N` is the number of Changes passed in
(not the number of vulnerabilities); when every passed Change is vulnerable and
some Change carries more than one vulnerability, `N` is strictly smaller than
the number of vulnerability rows the body renders. -/
theorem claim_C9_countLine (changes : List Change) (severity : Option String) :
    (∃ rest, createVulnerabilitiesCheckBodyCheck changes severity =
        "## Dependency Review\nWe found " ++ toString changes.length
          ++ " vulnerabilities" ++ rest)
    ∧ ((∀ c ∈ changes, c.vulnerabilities ≠ []) →
        (∃ c ∈ changes, 1 < c.vulnerabilities.length) →
        changes.length < renderedVulnRowCount changes) := by
  constructor
  · unfold createVulnerabilitiesCheckBodyCheck
    exact ⟨_, stringAppend_assoc _ _ _⟩
  · intro hall hex
    rw [renderedVulnRowCount_eq]
    have h1 : ∀ x ∈ changes.map (fun c => c.vulnerabilities.length), 1 ≤ x := by
      intro x hx
      obtain ⟨c, hc, hcx⟩ := List.mem_map.mp hx
      subst hcx
      have hpos := List.length_pos.mpr (hall c hc)
      omega
    have h2 : ∃ x ∈ changes.map (fun c => c.vulnerabilities.length), 2 ≤ x := by
      obtain ⟨c, hc, hc2⟩ := hex
      exact ⟨c.vulnerabilities.length, List.mem_map_of_mem _ hc, hc2⟩
    have h3 := length_lt_sum_of_two_le _ h1 h2
    simpa using h3

/-- Witness for C9 at a concrete input: a single change with two vulnerabilities
is announced as one vulnerability but renders two rows. -/
theorem claim_C9_witness :
    [exChangeMixed].length < renderedVulnRowCount [exChangeMixed] :=
  (claim_C9_countLine [exChangeMixed] none).2 (by decide) (by decide)

/-- Counterexample for C7 as stated: two Changes with identical `(name,
version)`, two vulnerabilities each. The claim says every row after the first
of the repeated pair is compressed — i.e. the flags after the first row are all
true — but the loop state resets at each Change, so the second Change's first
row is rendered in full (flag false), with the package and version cells
repeated in the rendered string. -/
theorem claim_C7_counterexample :
    (changeRowFlags exC7Change1 ++ changeRowFlags exC7Change2
      = [false, true, false, true])
    ∧ ¬(∀ b ∈ (changeRowFlags exC7Change1 ++ changeRowFlags exC7Change2).drop 1,
          b = true)
    ∧ changeRowsString exC7Change2 = "\n| pkg | 1.0.0|S3 | high |\n|||S4 | high |" :=
  ⟨by decide, by decide, by decide⟩

/-- C7 (amended): rows are grouped per manifest, and the `(name, version)`
compression applies within a single Change only: for a Change whose name and
version are not both empty, the first row is rendered in full and every later
row of that same Change is compressed; the previous-package state resets at
each Change, so the rendered section treats each Change's rows independently
(the first row of a second Change with the same `(name, version)` is rendered
in full). -/
theorem claim_C7_amended (changes : List Change)
    (h : ∀ c ∈ changes, ¬(c.name = "" ∧ c.version = "")) :
    (∀ c ∈ changes, changeRowFlags c =
      (match c.vulnerabilities with
       | [] => ([] : List Bool)
       | _ :: vs => false :: vs.map (fun _ => true)))
    ∧ (∀ c ∈ changes, changeRowsString c =
        joinStrings (((changeRowFlags c).zip c.vulnerabilities).map
          (fun bv => vulnRow c bv.1 bv.2)))
    ∧ (∀ m, vulnManifestSectionMain changes m =
        "\n### Manifes _" ++ m
          ++ "_\n|Package|Version|Vulnerability|Severity|\n|---|---:|---|---|"
          ++ joinStrings ((changes.filter (fun pkg => pkg.manifest == m)).map
              changeRowsString)) := by
  refine ⟨?_, ?_, ?_⟩
  · intro c hc
    exact changeRowFlags_spec c (h c hc)
  · intro c hc
    exact changeRowsAux_eq_join c c.vulnerabilities "" ""
  · intro m
    rfl

/-- Witness for C7 (amended) at a concrete input: the second repeated Change on
its own still renders its first row in full and its second row compressed. -/
theorem claim_C7_witness :
    changeRowFlags exC7Change2 = [false, true] :=
  (claim_C7_amended [exC7Change2] (by decide)).1 exC7Change2 (by decide)

/-- C10: every row of the Unknown Licenses table emits three cells — four pipe
separators — although the table header declares only the two columns Package
and Version — three pipe separators; the third cell renders the null license as
the string `null`. The hypotheses say the rendered package cell and the version
contain no pipe of their own. -/
theorem claim_C10_unknownRow (c : Change) (h : c.license = none)
    (hn : countPipes (renderUrl c.source_repository_url c.name) = 0)
    (hv : countPipes c.version = 0) :
    licenseRow c = "\n|" ++ renderUrl c.source_repository_url c.name ++ "|"
        ++ c.version ++ "|" ++ "null" ++ "|"
    ∧ countPipes (licenseRow c) = 4
    ∧ countPipes unknownColumnsHeader = 3
    ∧ (∀ (l : List Change) (m : String),
        unknownManifestSection l m =
          "\n ### Manifest _" ++ m ++ "_:\n" ++ unknownColumnsHeader ++ "\n|---|---:|"
            ++ joinStrings ((l.filter (fun pkg => pkg.manifest == m)).map licenseRow)) := by
  have hrow : licenseRow c = "\n|" ++ renderUrl c.source_repository_url c.name ++ "|"
      ++ c.version ++ "|" ++ "null" ++ "|" := by
    unfold licenseRow
    rw [h]
    rfl
  refine ⟨hrow, ?_, by decide, fun l m => rfl⟩
  rw [hrow]
  simp only [countPipes_append, hn, hv]
  decide

/-- Witness for C10 at a concrete input: the row rendered for an added change
with a null license has four pipe separators, one cell more than the header
declares. -/
theorem claim_C10_witness :
    countPipes (licenseRow exChangeNullLicense) = 4 :=
  (claim_C10_unknownRow exChangeNullLicense rfl (by decide) (by decide)).2.1

end DepReview


